import Mathlib

/-!
Verification of the client script `static/js/main.js` of the my-argus
repository (a browser dashboard that fetches JSON endpoints and renders
them into DOM regions), against its natural-language specification.

The script is embedded shallowly: JS values are the inductive `JSVal`,
DOM writes become pure record updates, and each function of the script
(`esc`, `fetchJSON`, `renderKV`, `renderPreviewTable`, `progress`,
`loadEmails` query construction, the clear-filter handler) becomes an
executable Lean definition translated line by line from the source.
-/

namespace Argus

/-- JavaScript runtime values, as far as the dashboard script observes
them: `undefined`, `null`, booleans, numbers (the script only ever
produces and consumes integral numbers), strings, arrays and plain
objects (field lists in insertion order). -/
inductive JSVal where
  | undefinedVal : JSVal
  | null : JSVal
  | bool (b : Bool) : JSVal
  | num (n : Int) : JSVal
  | str (s : String) : JSVal
  | arr (elems : List JSVal) : JSVal
  | obj (fields : List (String × JSVal)) : JSVal
deriving Repr

/-- Model of `s.replaceAll(c, r)` for a one-character pattern `c`: every
occurrence of the character is replaced by the replacement string.
For a single-character pattern the left-to-right non-overlapping
replacement is exactly a per-character expansion. -/
def replaceChar (c : Char) (r : List Char) (s : List Char) : List Char :=
  s.flatMap (fun ch => if ch = c then r else [ch])

/-- The body of `esc` from main.js, on character lists: the five
`replaceAll` calls applied in source order (`&` first, then `<`, `>`,
`"`, `'`). -/
def escList (s : List Char) : List Char :=
  replaceChar '\'' ("&#039;").data
    (replaceChar '"' ("&quot;").data
      (replaceChar '>' ("&gt;").data
        (replaceChar '<' ("&lt;").data
          (replaceChar '&' ("&amp;").data s))))

/-- Function `esc` from main.js (the input already stringified; the script
applies `String(s)` first, which is `jsToString` below). -/
def esc (s : String) : String :=
  String.mk (escList s.data)

/-- The per-character table the five sequential `replaceAll` calls of
`esc` amount to. -/
def escChar (c : Char) : List Char :=
  if c = '&' then ("&amp;").data
  else if c = '<' then ("&lt;").data
  else if c = '>' then ("&gt;").data
  else if c = '"' then ("&quot;").data
  else if c = '\'' then ("&#039;").data
  else [c]

theorem replaceChar_append (c : Char) (r : List Char) (a b : List Char) :
    replaceChar c r (a ++ b) = replaceChar c r a ++ replaceChar c r b := by
  simp [replaceChar]

theorem escList_append (a b : List Char) :
    escList (a ++ b) = escList a ++ escList b := by
  simp [escList, replaceChar_append]

theorem escList_singleton (c : Char) : escList [c] = escChar c := by
  by_cases h1 : c = '&'
  · subst h1; rfl
  · by_cases h2 : c = '<'
    · subst h2; rfl
    · by_cases h3 : c = '>'
      · subst h3; rfl
      · by_cases h4 : c = '"'
        · subst h4; rfl
        · by_cases h5 : c = '\''
          · subst h5; rfl
          · simp [escList, escChar, replaceChar, h1, h2, h3, h4, h5]

theorem escList_eq_flatMap (s : List Char) : escList s = s.flatMap escChar := by
  induction s with
  | nil => rfl
  | cons c t ih =>
    rw [List.flatMap_cons, ← ih, ← escList_singleton]
    exact escList_append [c] t

theorem escChar_no_specials (c : Char) :
    ∀ x ∈ escChar c, x ≠ '<' ∧ x ≠ '>' ∧ x ≠ '"' ∧ x ≠ '\'' := by
  unfold escChar
  split
  · decide
  · split
    · decide
    · split
      · decide
      · split
        · decide
        · split
          · decide
          · rename_i h1 h2 h3 h4 h5
            intro x hx
            simp only [List.mem_singleton] at hx
            subst hx
            exact ⟨h2, h3, h4, h5⟩

/-- Scanner for the "no unescaped ampersand" property: every `&` in the
list must begin one of the five entities `esc` emits (`&amp;`, `&lt;`,
`&gt;`, `&quot;`, `&#039;`); all other characters are skipped. -/
def ampOk : List Char → Bool
  | [] => true
  | c :: rest =>
    if c = '&' then
      if rest.take 4 = ("amp;").data then ampOk (rest.drop 4)
      else if rest.take 3 = ("lt;").data then ampOk (rest.drop 3)
      else if rest.take 3 = ("gt;").data then ampOk (rest.drop 3)
      else if rest.take 5 = ("quot;").data then ampOk (rest.drop 5)
      else if rest.take 5 = ("#039;").data then ampOk (rest.drop 5)
      else false
    else ampOk rest
termination_by l => l.length
decreasing_by
  all_goals simp only [List.length_cons, List.length_drop]
  all_goals omega

theorem ampOk_escChar_append (c : Char) (t : List Char) :
    ampOk (escChar c ++ t) = ampOk t := by
  unfold escChar
  split
  · simp [ampOk]
  · split
    · simp [ampOk]
    · split
      · simp [ampOk]
      · split
        · simp [ampOk]
        · split
          · simp [ampOk]
          · rename_i h1 h2 h3 h4 h5
            simp [ampOk, h1]

theorem ampOk_flatMap_escChar (s : List Char) :
    ampOk (s.flatMap escChar) = true := by
  induction s with
  | nil => simp [ampOk]
  | cons c t ih => rw [List.flatMap_cons, ampOk_escChar_append, ih]

/-- C1: for every (stringified) input to `esc`, the output contains no
literal `<`, `>`, `"` or `'`; every `&` in the output begins one of the
five escape entities (so no `&` from the input survives unescaped); and
the output is exactly the in-order per-occurrence replacement of the
input characters by `&amp;`, `&lt;`, `&gt;`, `&quot;`, `&#039;`. -/
theorem esc_output_escaped (s : String) :
    ('<' ∉ (esc s).data ∧ '>' ∉ (esc s).data ∧
      '"' ∉ (esc s).data ∧ '\'' ∉ (esc s).data) ∧
    ampOk (esc s).data = true ∧
    (esc s).data = s.data.flatMap escChar := by
  have hdata : (esc s).data = s.data.flatMap escChar := by
    simp [esc, escList_eq_flatMap]
  refine ⟨⟨?_, ?_, ?_, ?_⟩, ?_, hdata⟩ <;> rw [hdata]
  · intro hmem
    obtain ⟨c, _, hc⟩ := List.mem_flatMap.mp hmem
    exact (escChar_no_specials c _ hc).1 rfl
  · intro hmem
    obtain ⟨c, _, hc⟩ := List.mem_flatMap.mp hmem
    exact (escChar_no_specials c _ hc).2.1 rfl
  · intro hmem
    obtain ⟨c, _, hc⟩ := List.mem_flatMap.mp hmem
    exact (escChar_no_specials c _ hc).2.2.1 rfl
  · intro hmem
    obtain ⟨c, _, hc⟩ := List.mem_flatMap.mp hmem
    exact (escChar_no_specials c _ hc).2.2.2 rfl
  · exact ampOk_flatMap_escChar s.data

/-- JavaScript truthiness, restricted to the values of `JSVal`:
`undefined`, `null`, `false`, `0` and `""` are falsy, everything else
truthy. -/
def truthy : JSVal → Bool
  | .undefinedVal => false
  | .null => false
  | .bool b => b
  | .num n => n != 0
  | .str s => s != ""
  | .arr _ => true
  | .obj _ => true

/-- Model of the optional-chaining property access `v?.k`: `undefined` when the
receiver is nullish or the key is absent; the stored value otherwise.
Plain `v[k]` on an object behaves the same way, which is how the script
uses it (`row[c]`). -/
def optField (v : JSVal) (k : String) : JSVal :=
  match v with
  | .obj fields =>
    match fields.find? (fun p => p.1 == k) with
    | some p => p.2
    | none => .undefinedVal
  | _ => .undefinedVal

/-- Model of the optional-chaining index access `v?.[i]` (array element, object
numeric key, string character; `undefined` otherwise). -/
def optIndex (v : JSVal) (i : Nat) : JSVal :=
  match v with
  | .arr xs => (xs.get? i).getD .undefinedVal
  | .obj fields => optField (.obj fields) (toString i)
  | .str s =>
    match s.data.get? i with
    | some c => .str (String.mk [c])
    | none => .undefinedVal
  | _ => .undefinedVal

/-- JavaScript `a || b` (value-returning disjunction). -/
def jsOr (a b : JSVal) : JSVal := if truthy a then a else b

/-- JavaScript `a ?? b` (nullish coalescing). -/
def jsNullish (a b : JSVal) : JSVal :=
  match a with
  | .undefinedVal => b
  | .null => b
  | _ => a

mutual

/-- JavaScript `String(v)` (also the coercion applied by a `textContent`
assignment). -/
def jsToString : JSVal → String
  | .undefinedVal => "undefined"
  | .null => "null"
  | .bool b => if b then "true" else "false"
  | .num n => toString n
  | .str s => s
  | .arr xs => jsArrString xs
  | .obj _ => "[object Object]"

/-- Model of `Array.prototype.toString`: elements joined by commas, with nullish
elements contributing the empty string. -/
def jsArrString : List JSVal → String
  | [] => ""
  | x :: xs =>
    (match x with
      | .undefinedVal => ""
      | .null => ""
      | v => jsToString v) ++
    (if xs.isEmpty then "" else "," ++ jsArrString xs)

end

/-- The three DOM text regions written by `renderKV` in main.js. -/
structure KVOut where
  meUser : String
  meDisplay : String
  meActive : String
deriving Repr, DecidableEq

/-- Function `renderKV(user)` from main.js, as a pure function from the `user`
value to the three rendered strings:
`userName = user?.userName || user?.emails?.[0]?.value || "—"`,
`display = user?.displayName
  || [user?.name?.givenName, user?.name?.familyName].filter(Boolean).join(" ")
  || "—"`,
`active = (user?.active === true || user?.active === false)
  ? String(user.active) : "—"`. -/
def renderKV (user : JSVal) : KVOut :=
  let userName :=
    jsOr (jsOr (optField user ("userName"))
        (optField (optIndex (optField user ("emails")) 0) ("value")))
      (.str ("—"))
  let display :=
    jsOr (jsOr (optField user ("displayName"))
        (.str (String.intercalate (" ")
          (([optField (optField user ("name")) ("givenName"),
             optField (optField user ("name")) ("familyName")].filter
              (fun v => truthy v)).map jsToString))))
      (.str ("—"))
  let active :=
    match optField user ("active") with
    | .bool b => jsToString (.bool b)
    | _ => "—"
  { meUser := jsToString userName
    meDisplay := jsToString display
    meActive := active }

/-- Function `loadUser` from main.js, restricted to its rendering of the
identity region: it fetches `/api/me` into `data` and calls
`renderKV(data?.current_user)`. -/
def loadUserView (data : JSVal) : KVOut :=
  renderKV (optField data ("current_user"))

/-- C3 (counterexample): with `current_user = {givenName: "Jane",
familyName: "Doe"}` (the given/family names at top level, not nested
under a `name` field) and no `displayName`/`userName`, `loadUser`
renders the display name as the placeholder dash "—", not "Jane Doe":
`renderKV` reads `user?.name?.givenName` and `user?.name?.familyName`,
which are both `undefined` here. -/
theorem loadUser_flat_names_render_dash :
    (loadUserView (.obj [(("current_user"),
        .obj [(("givenName"), .str ("Jane")),
              (("familyName"), .str ("Doe"))])])).meDisplay = ("—") ∧
    (("—") : String) ≠ ("Jane Doe") := by
  exact ⟨rfl, by decide⟩

/-- C3 (amended): with `current_user = {name: {givenName: "Jane",
familyName: "Doe"}}` (the shape `renderKV` actually reads) and no
`displayName`/`userName`, `loadUser` renders the display name
"Jane Doe" and the userName placeholder "—". -/
theorem loadUser_nested_names_render_join :
    (loadUserView (.obj [(("current_user"),
        .obj [(("name"),
          .obj [(("givenName"), .str ("Jane")),
                (("familyName"), .str ("Doe"))])])])).meDisplay
        = ("Jane Doe") ∧
    (loadUserView (.obj [(("current_user"),
        .obj [(("name"),
          .obj [(("givenName"), .str ("Jane")),
                (("familyName"), .str ("Doe"))])])])).meUser = ("—") := by
  exact ⟨rfl, rfl⟩

/-- Model of `Object.keys(row)`: field names of an object in insertion order;
index strings for arrays and strings; empty for primitives. -/
def keysOf : JSVal → List String
  | .obj fields => fields.map Prod.fst
  | .arr xs => (List.range xs.length).map (fun i => toString i)
  | .str s => (List.range s.length).map (fun i => toString i)
  | _ => []

/-- Expression `rows.slice(0, maxRows)` from `renderPreviewTable`. -/
def sampleOf (rows : List JSVal) (maxRows : Nat) : List JSVal :=
  rows.take maxRows

/-- Model of `set.add(key)` on an insertion-ordered set represented as a
duplicate-free list: appends the key if it is not already present. -/
def insertKey (acc : List String) (k : String) : List String :=
  if k ∈ acc then acc else acc ++ [k]

/-- The column computation of `renderPreviewTable`:
`Array.from(sample.reduce((set, row) => {add all keys}, new Set()))`,
an insertion-ordered union of the keys of the sampled rows. -/
def colsOf (samp : List JSVal) : List String :=
  samp.foldl (fun acc row => (keysOf row).foldl insertKey acc) []

/-- One table cell of `renderPreviewTable`:
`` `<td>${esc(row[c] ?? "—")}</td>` ``. -/
def cellOf (row : JSVal) (c : String) : String :=
  ("<td>") ++ esc (jsToString (jsNullish (optField row c) (.str ("—")))) ++ ("</td>")

/-- One body row of `renderPreviewTable`:
`` `<tr>${cols.map((c) => `<td>...</td>`).join("")}</tr>` ``. -/
def renderRow (cols : List String) (row : JSVal) : String :=
  ("<tr>") ++ String.join (cols.map (fun c => cellOf row c)) ++ ("</tr>")

/-- The placeholder markup `renderPreviewTable` writes for a non-array
or empty input. -/
def emptyRowsMessage : String := "<em class=\"empty\">No rows available.</em>"

/-- Function `renderPreviewTable(el, rows, maxRows)` from main.js, as a pure
function from the `rows` value to the markup assigned to
`el.innerHTML`. The source defaults `maxRows` to 10; callers here pass
it explicitly. -/
def renderPreviewTable (v : JSVal) (maxRows : Nat) : String :=
  match v with
  | .arr rows =>
    if rows.length = 0 then emptyRowsMessage
    else
      let samp := sampleOf rows maxRows
      let cols := colsOf samp
      let thead := ("<thead><tr>")
        ++ String.join (cols.map (fun c => ("<th>") ++ esc c ++ ("</th>")))
        ++ ("</tr></thead>")
      let tbody := ("<tbody>")
        ++ String.join (samp.map (fun row => renderRow cols row))
        ++ ("</tbody>")
      ("<table>") ++ thead ++ tbody ++ ("</table>")
  | _ => emptyRowsMessage

/-- Specification-side description of "union of keys in first-seen
order": keep the first occurrence of every element, drop later
duplicates. -/
def dedupFirst : List String → List String
  | [] => []
  | x :: xs => x :: dedupFirst (xs.filter (fun y => y != x))
termination_by l => l.length
decreasing_by
  simp only [List.length_cons]
  exact Nat.lt_succ_of_le (List.length_filter_le _ _)

/-- Predicate `hasPre hay needle`: `needle` is a prefix of `hay`. -/
def hasPre : List Char → List Char → Bool
  | _, [] => true
  | [], _ :: _ => false
  | h :: hs, n :: ns => h == n && hasPre hs ns

/-- Predicate `hasSub hay needle`: `needle` occurs as a contiguous substring of
`hay`. -/
def hasSub : List Char → List Char → Bool
  | [], needle => hasPre [] needle
  | h :: t, needle => hasPre (h :: t) needle || hasSub t needle

theorem mem_dedupFirst (l : List String) (a : String) :
    a ∈ dedupFirst l ↔ a ∈ l := by
  induction l using dedupFirst.induct with
  | case1 => simp [dedupFirst]
  | case2 x xs ih =>
    rw [dedupFirst]
    simp only [List.mem_cons, ih, List.mem_filter]
    constructor
    · rintro (rfl | ⟨h, _⟩)
      · exact Or.inl rfl
      · exact Or.inr h
    · rintro (rfl | h)
      · exact Or.inl rfl
      · by_cases hx : a = x
        · exact Or.inl hx
        · exact Or.inr ⟨h, by simp [hx]⟩

theorem nodup_dedupFirst (l : List String) : (dedupFirst l).Nodup := by
  induction l using dedupFirst.induct with
  | case1 => simp [dedupFirst]
  | case2 x xs ih =>
    rw [dedupFirst]
    refine List.nodup_cons.mpr ⟨?_, ih⟩
    intro hmem
    rw [mem_dedupFirst, List.mem_filter] at hmem
    simp at hmem

theorem foldl_insertKey (l : List String) (acc : List String) :
    l.foldl insertKey acc
      = acc ++ dedupFirst (l.filter (fun y => decide (y ∉ acc))) := by
  induction l generalizing acc with
  | nil => simp [dedupFirst]
  | cons x xs ih =>
    rw [List.foldl_cons, ih]
    by_cases hx : x ∈ acc
    · have h1 : insertKey acc x = acc := by simp [insertKey, hx]
      have h2 : (x :: xs).filter (fun y => decide (y ∉ acc))
          = xs.filter (fun y => decide (y ∉ acc)) := by
        rw [List.filter_cons]; simp [hx]
      rw [h1, h2]
    · have h1 : insertKey acc x = acc ++ [x] := by simp [insertKey, hx]
      have h2 : (x :: xs).filter (fun y => decide (y ∉ acc))
          = x :: xs.filter (fun y => decide (y ∉ acc)) := by
        rw [List.filter_cons]; simp [hx]
      have h3 : dedupFirst (x :: xs.filter (fun y => decide (y ∉ acc)))
          = x :: dedupFirst ((xs.filter (fun y => decide (y ∉ acc))).filter
              (fun y => y != x)) := by
        rw [dedupFirst]
      rw [h1, h2, h3, List.append_assoc, List.singleton_append]
      congr 2
      rw [List.filter_filter]
      congr 1
      apply List.filter_congr
      intro a _
      by_cases hax : a = x <;> by_cases ha : a ∈ acc <;>
        simp [hax, ha, List.mem_append]

theorem colsOf_eq_dedupFirst (samp : List JSVal) :
    colsOf samp = dedupFirst (samp.flatMap keysOf) := by
  have h1 : ∀ (L : List JSVal) (acc : List String),
      L.foldl (fun acc row => (keysOf row).foldl insertKey acc) acc
        = (L.flatMap keysOf).foldl insertKey acc := by
    intro L
    induction L with
    | nil => intro acc; rfl
    | cons r rs ih =>
      intro acc
      rw [List.foldl_cons, List.flatMap_cons, List.foldl_append, ih]
  have h2 : (samp.flatMap keysOf).filter
      (fun y => decide (y ∉ ([] : List String))) = samp.flatMap keysOf := by
    apply List.filter_eq_self.mpr
    intro a _
    simp
  rw [colsOf, h1, foldl_insertKey, h2, List.nil_append]

/-- C2: for every non-empty `rows` array and row bound `maxRows`, the
sampled rows (which become exactly the rendered data rows of the table,
one `<tr>` per sampled record) number `min rows.length maxRows`; the
rendered columns are the union of the keys of only the sampled records,
deduplicated keeping the first occurrence (insertion order across
records, not sorted); and the rendered markup is one header cell per
column followed by one row per sampled record. -/
theorem preview_sample_and_columns (rows : List JSVal) (maxRows : Nat)
    (h : rows ≠ []) :
    (sampleOf rows maxRows).length = min rows.length maxRows ∧
    colsOf (sampleOf rows maxRows)
      = dedupFirst ((sampleOf rows maxRows).flatMap keysOf) ∧
    (∀ k, k ∈ colsOf (sampleOf rows maxRows) ↔
        ∃ row ∈ sampleOf rows maxRows, k ∈ keysOf row) ∧
    (colsOf (sampleOf rows maxRows)).Nodup ∧
    renderPreviewTable (.arr rows) maxRows
      = ("<table>") ++ (("<thead><tr>")
          ++ String.join ((colsOf (sampleOf rows maxRows)).map
              (fun c => ("<th>") ++ esc c ++ ("</th>")))
          ++ ("</tr></thead>"))
        ++ (("<tbody>")
          ++ String.join ((sampleOf rows maxRows).map
              (fun row => renderRow (colsOf (sampleOf rows maxRows)) row))
          ++ ("</tbody>")) ++ ("</table>") := by
  refine ⟨?_, colsOf_eq_dedupFirst _, ?_, ?_, ?_⟩
  · rw [sampleOf, List.length_take, Nat.min_comm]
  · intro k
    rw [colsOf_eq_dedupFirst, mem_dedupFirst, List.mem_flatMap]
  · rw [colsOf_eq_dedupFirst]
    exact nodup_dedupFirst _
  · have hlen : ¬ rows.length = 0 := by
      simpa [List.length_eq_zero] using h
    simp only [renderPreviewTable, if_neg hlen]

/-- Concrete rows used to witness the preview-table theorems. -/
def witnessRows : List JSVal :=
  [.obj [(("a"), .num 1)], .obj [(("b"), .num 2)]]

theorem preview_sample_and_columns_witness :
    witnessRows ≠ [] ∧
    (sampleOf witnessRows 1).length = min witnessRows.length 1 ∧
    colsOf (sampleOf witnessRows 1) = [("a")] := by
  have h := preview_sample_and_columns witnessRows 1 (by simp [witnessRows])
  exact ⟨by simp [witnessRows], h.1, rfl⟩

/-- C7: for every input that is not an array, and for the empty array,
the preview renderer outputs exactly the placeholder
`<em class="empty">No rows available.</em>` markup, which contains no
`<table` substring (so no table element). -/
theorem preview_empty_placeholder (v : JSVal) (maxRows : Nat)
    (h : (∀ xs, v ≠ .arr xs) ∨ v = .arr []) :
    renderPreviewTable v maxRows = emptyRowsMessage ∧
    hasSub (renderPreviewTable v maxRows).data (("<table").data) = false := by
  have hmsg : renderPreviewTable v maxRows = emptyRowsMessage := by
    rcases h with h | h
    · cases v with
      | arr xs => exact absurd rfl (h xs)
      | undefinedVal => rfl
      | null => rfl
      | bool b => rfl
      | num n => rfl
      | str s => rfl
      | obj f => rfl
    · subst h; rfl
  refine ⟨hmsg, ?_⟩
  rw [hmsg]
  decide

theorem preview_empty_placeholder_witness :
    renderPreviewTable (.arr []) 10 = emptyRowsMessage ∧
    renderPreviewTable .null 10 = emptyRowsMessage :=
  ⟨(preview_empty_placeholder (.arr []) 10 (Or.inr rfl)).1,
    (preview_empty_placeholder .null 10
      (Or.inl (fun _ h => JSVal.noConfusion h))).1⟩

/-- C10: a cell whose record holds an explicit `null` for the column
renders the same placeholder dash `<td>—</td>` as a record missing the
key entirely (both are nullish, so `row[c] ?? "—"` yields the dash);
moreover every record/column pair yields a rendered `<td>...</td>` cell
(the row markup contains exactly one cell per column), never a missing
or failing one. -/
theorem cell_null_missing_dash (fields : List (String × JSVal)) (c : String) :
    (optField (.obj fields) c = .undefinedVal →
      cellOf (.obj fields) c = ("<td>—</td>")) ∧
    (optField (.obj fields) c = .null →
      cellOf (.obj fields) c = ("<td>—</td>")) ∧
    (∃ body, cellOf (.obj fields) c = ("<td>") ++ body ++ ("</td>")) ∧
    (∀ cols : List String,
      renderRow cols (.obj fields)
        = ("<tr>") ++ String.join (cols.map (fun k => cellOf (.obj fields) k))
            ++ ("</tr>") ∧
      (cols.map (fun k => cellOf (.obj fields) k)).length = cols.length) := by
  refine ⟨?_, ?_, ⟨_, rfl⟩, ?_⟩
  · intro h
    simp only [cellOf, h]
    rfl
  · intro h
    simp only [cellOf, h]
    rfl
  · intro cols
    exact ⟨rfl, by simp⟩

theorem cell_null_missing_dash_witness :
    optField (.obj [(("subject"), JSVal.null)]) ("subject") = JSVal.null ∧
    cellOf (.obj [(("subject"), JSVal.null)]) ("subject") = ("<td>—</td>") ∧
    optField (.obj ([] : List (String × JSVal))) ("subject") = JSVal.undefinedVal ∧
    cellOf (.obj []) ("subject") = ("<td>—</td>") :=
  ⟨rfl,
    (cell_null_missing_dash [(("subject"), JSVal.null)] ("subject")).2.1 rfl,
    rfl,
    (cell_null_missing_dash [] ("subject")).1 rfl⟩

/-!
Model of the host primitive `JSON.parse`, which `fetchJSON` wraps in a
try/catch. The parser below covers the JSON grammar as the backend
emits it (null, booleans, integers, strings with simple escapes,
arrays, objects); what the claims need from it is only that it is a
total function returning `none` on non-JSON bodies, mirroring the
exception `JSON.parse` throws.
-/

def lbrace : Char := Char.ofNat 123

def rbrace : Char := Char.ofNat 125

def jsonWs (c : Char) : Bool :=
  (c == ' ') || (c == '\t') || (c == '\n') || (c == '\r')

def skipWs : List Char → List Char
  | [] => []
  | c :: rest => if jsonWs c then skipWs rest else c :: rest

def digitsToNat (ds : List Char) : Nat :=
  ds.foldl (fun n c => 10 * n + (c.toNat - 48)) 0

def jsonEscChar : Char → Char
  | 'n' => '\n'
  | 't' => '\t'
  | 'r' => '\r'
  | 'b' => Char.ofNat 8
  | 'f' => Char.ofNat 12
  | e => e

def parseStringBody : List Char → Option (List Char × List Char)
  | [] => none
  | c :: rest =>
    if c = '"' then some ([], rest)
    else if c = '\\' then
      match rest with
      | [] => none
      | e :: rest2 =>
        match parseStringBody rest2 with
        | some (acc, r) => some (jsonEscChar e :: acc, r)
        | none => none
    else
      match parseStringBody rest with
      | some (acc, r) => some (c :: acc, r)
      | none => none
termination_by l => l.length
decreasing_by
  all_goals simp only [List.length_cons]
  all_goals omega

mutual

def parseVal : Nat → List Char → Option (JSVal × List Char)
  | 0, _ => none
  | fuel + 1, s =>
    match skipWs s with
    | [] => none
    | c :: rest =>
      if c = 'n' then
        match rest with
        | 'u' :: 'l' :: 'l' :: r => some (.null, r)
        | _ => none
      else if c = 't' then
        match rest with
        | 'r' :: 'u' :: 'e' :: r => some (.bool true, r)
        | _ => none
      else if c = 'f' then
        match rest with
        | 'a' :: 'l' :: 's' :: 'e' :: r => some (.bool false, r)
        | _ => none
      else if c = '"' then
        match parseStringBody rest with
        | some (cs, r) => some (.str (String.mk cs), r)
        | none => none
      else if c = '-' then
        match rest.span (fun d => d.isDigit) with
        | ([], _) => none
        | (ds, r) => some (.num (-(digitsToNat ds : Int)), r)
      else if c.isDigit then
        match (c :: rest).span (fun d => d.isDigit) with
        | (ds, r) => some (.num (digitsToNat ds), r)
      else if c = '[' then
        match skipWs rest with
        | ']' :: r => some (.arr [], r)
        | _ => parseElems fuel rest []
      else if c = lbrace then
        match skipWs rest with
        | c2 :: r =>
          if c2 = rbrace then some (.obj [], r)
          else parseFields fuel rest []
        | [] => none
      else none

def parseElems : Nat → List Char → List JSVal → Option (JSVal × List Char)
  | 0, _, _ => none
  | fuel + 1, s, acc =>
    match parseVal fuel s with
    | none => none
    | some (v, r) =>
      match skipWs r with
      | ',' :: r2 => parseElems fuel r2 (acc ++ [v])
      | ']' :: r2 => some (.arr (acc ++ [v]), r2)
      | _ => none

def parseFields : Nat → List Char → List (String × JSVal) →
    Option (JSVal × List Char)
  | 0, _, _ => none
  | fuel + 1, s, acc =>
    match skipWs s with
    | '"' :: rest =>
      match parseStringBody rest with
      | none => none
      | some (k, r) =>
        match skipWs r with
        | ':' :: r2 =>
          match parseVal fuel r2 with
          | none => none
          | some (v, r3) =>
            match skipWs r3 with
            | c4 :: r4 =>
              if c4 = ',' then parseFields fuel r4 (acc ++ [(String.mk k, v)])
              else if c4 = rbrace then
                some (.obj (acc ++ [(String.mk k, v)]), r4)
              else none
            | [] => none
        | _ => none
    | _ => none

end

def jsonParse (s : String) : Option JSVal :=
  match parseVal (s.length + 1) s.data with
  | some (v, r) => if skipWs r = [] then some v else none
  | none => none

/-- Function `fetchJSON` from main.js, as a pure function of the response the
helper observed (HTTP status code and raw body text): the parsed JSON
value when the body parses, the `status`/`text` fallback record
otherwise. The embedding is total: the parse failure is absorbed here,
exactly as the try/catch in the source absorbs it, and never surfaces
to the caller. -/
def fetchJSON (status : Int) (body : String) : JSVal :=
  match jsonParse body with
  | some v => v
  | none => .obj [(("status"), .num status), (("text"), .str body)]

/-- C4: for every HTTP response whose body text fails to parse as JSON,
`fetchJSON` returns the fallback record with the status code and the
raw body text; being a total function, it raises nothing to its
caller. -/
theorem fetchJSON_parse_failure_fallback (status : Int) (body : String)
    (h : jsonParse body = none) :
    fetchJSON status body
      = .obj [(("status"), .num status), (("text"), .str body)] := by
  simp [fetchJSON, h]

theorem fetchJSON_parse_failure_fallback_witness :
    jsonParse ("not json") = none ∧
    fetchJSON 200 ("not json")
      = .obj [(("status"), .num 200), (("text"), .str ("not json"))] :=
  ⟨rfl, fetchJSON_parse_failure_fallback 200 ("not json") rfl⟩

/-- Model of `URLSearchParams.set(k, v)` on an insertion-ordered parameter
list: overwrites the value if the key is present, appends the pair
otherwise. -/
def setParam (qs : List (String × String)) (k v : String) :
    List (String × String) :=
  if (qs.map Prod.fst).contains k then
    qs.map (fun p => if p.1 = k then (k, v) else p)
  else qs ++ [(k, v)]

/-- Model of `String.prototype.trim`: strip leading and trailing whitespace. -/
def jsTrim (s : String) : String :=
  String.mk
    (((s.data.dropWhile (fun c => c.isWhitespace)).reverse.dropWhile
      (fun c => c.isWhitespace)).reverse)

/-- The query construction of `loadEmails` from main.js: trim the
subject and from-email text inputs, conditionally `set` each non-blank
filter in source order (`subject`, `from_email`, `is_read`,
`is_starred` — the text inputs tested for truthiness, the selectors for
`!== ""`), then always `set("limit", "100")`. -/
def loadEmailsQuery (subject fromEmail isRead isStarred : String) :
    List (String × String) :=
  let subject := jsTrim subject
  let fromEmail := jsTrim fromEmail
  let qs0 : List (String × String) := []
  let qs1 := if subject ≠ "" then setParam qs0 ("subject") subject else qs0
  let qs2 := if fromEmail ≠ "" then setParam qs1 ("from_email") fromEmail else qs1
  let qs3 := if isRead ≠ "" then setParam qs2 ("is_read") isRead else qs2
  let qs4 := if isStarred ≠ "" then setParam qs3 ("is_starred") isStarred else qs3
  setParam qs4 ("limit") ("100")

/-- Upper-case hexadecimal digit of a value below 16. -/
def hexDigit (n : Nat) : Char :=
  if n < 10 then Char.ofNat (48 + n) else Char.ofNat (55 + n)

/-- Percent-encoding of one byte. -/
def byteHex (b : UInt8) : String :=
  String.mk ['%', hexDigit (b.toNat / 16), hexDigit (b.toNat % 16)]

/-- One character of the `application/x-www-form-urlencoded`
serialization `URLSearchParams.toString` uses: alphanumerics and
`*-._` unchanged, space as `+`, anything else percent-encoded per
UTF-8 byte. -/
def encodeChar (c : Char) : String :=
  if c.isAlphanum || c == '*' || c == '-' || c == '.' || c == '_' then
    String.mk [c]
  else if c == ' ' then ("+")
  else String.join (((String.mk [c]).toUTF8.toList).map byteHex)

def encodeComponent (s : String) : String :=
  String.join (s.data.map encodeChar)

/-- Model of `URLSearchParams.toString()`: `k=v` pairs joined by `&` in
insertion order. -/
def qsToString (qs : List (String × String)) : String :=
  String.intercalate ("&")
    (qs.map (fun p => encodeComponent p.1 ++ ("=") ++ encodeComponent p.2))

/-- C5: when all four filter controls hold blank values, the query of
`loadEmails` holds exactly the single parameter `limit=100`; no
`subject`, `from_email`, `is_read` or `is_starred` parameter appears. -/
theorem loadEmails_blank_filters_query
    (subject fromEmail isRead isStarred : String)
    (h1 : jsTrim subject = "") (h2 : jsTrim fromEmail = "")
    (h3 : isRead = "") (h4 : isStarred = "") :
    loadEmailsQuery subject fromEmail isRead isStarred
      = [(("limit"), ("100"))] ∧
    qsToString (loadEmailsQuery subject fromEmail isRead isStarred)
      = ("limit=100") ∧
    (loadEmailsQuery subject fromEmail isRead isStarred).map Prod.fst
      = [("limit")] := by
  have hq : loadEmailsQuery subject fromEmail isRead isStarred
      = [(("limit"), ("100"))] := by
    simp [loadEmailsQuery, h1, h2, h3, h4, setParam]
  refine ⟨hq, ?_, ?_⟩ <;> rw [hq] <;> rfl

theorem loadEmails_blank_filters_query_witness :
    jsTrim (" ") = ("") ∧
    loadEmailsQuery ("") ("") ("") ("") = [(("limit"), ("100"))] :=
  ⟨rfl, (loadEmails_blank_filters_query (" ") ("") ("") ("") rfl rfl rfl rfl).1⟩

/-- C6: with subject "Invoice", is-read "true" and the other two
controls blank, the query of `loadEmails` is exactly
`subject=Invoice&is_read=true&limit=100`, in that insertion order, with
no `from_email` and no `is_starred` parameter. -/
theorem loadEmails_subject_isread_query :
    loadEmailsQuery ("Invoice") ("") ("true") ("")
      = [(("subject"), ("Invoice")), (("is_read"), ("true")),
         (("limit"), ("100"))] ∧
    qsToString (loadEmailsQuery ("Invoice") ("") ("true") (""))
      = ("subject=Invoice&is_read=true&limit=100") ∧
    (loadEmailsQuery ("Invoice") ("") ("true") ("")).map Prod.fst
      = [("subject"), ("is_read"), ("limit")] := by
  refine ⟨?_, ?_, ?_⟩ <;> rfl

/-- The width computation of `progress` from main.js:
`Math.max(0, Math.min(100, pct))`, rendered as `` `${next}%` ``. -/
def progressWidth (pct : Int) : String :=
  toString (max 0 (min 100 pct)) ++ ("%")

/-- Function `progress(elBar, pct)` from main.js: no write when the bar element
is absent (`if(!elBar) return`), otherwise the bar width is set to the
clamped percentage. -/
def progress (elBar : Option String) (pct : Int) : Option String :=
  match elBar with
  | none => none
  | some _ => some (progressWidth pct)

/-- C8: for every numeric input, the progress renderer sets the width
to the input clamped to [0,100]: an in-range input is rendered
unchanged, an input above 100 as `100%`, a negative input as `0%`; in
particular 150 renders as `100%` and -20 as `0%`. -/
theorem progress_clamps (pct : Int) :
    (0 ≤ pct → pct ≤ 100 → progressWidth pct = toString pct ++ ("%")) ∧
    (100 < pct → progressWidth pct = ("100%")) ∧
    (pct < 0 → progressWidth pct = ("0%")) ∧
    progressWidth 150 = ("100%") ∧ progressWidth (-20) = ("0%") := by
  refine ⟨?_, ?_, ?_, rfl, rfl⟩
  · intro h1 h2
    have h : max 0 (min 100 pct) = pct := by
      rw [min_eq_right h2]
      exact max_eq_right h1
    rw [progressWidth, h]
  · intro h
    have hmin : min 100 pct = 100 := min_eq_left (le_of_lt h)
    rw [progressWidth, hmin]
    rfl
  · intro h
    have hmin : min 100 pct = pct :=
      min_eq_right (le_of_lt (lt_trans h (by norm_num)))
    have hmax : max 0 pct = 0 := max_eq_left (le_of_lt h)
    rw [progressWidth, hmin, hmax]
    rfl

theorem progress_clamps_witness :
    progressWidth 50 = ("50%") ∧
    progressWidth 150 = ("100%") ∧ progressWidth (-20) = ("0%") :=
  ⟨(progress_clamps 50).1 (by decide) (by decide),
    (progress_clamps 150).2.2.2.1, (progress_clamps 0).2.2.2.2⟩

/-- The DOM regions main.js touches, by element id, each holding its
rendered text (for the two bars, the style width). -/
structure Dom where
  subjectInput : String
  fromEmailInput : String
  isReadSelect : String
  isStarredSelect : String
  emailTable : String
  emailRaw : String
  emailCount : String
  emailTiming : String
  emailBarWidth : String
  meMode : String
  meRaw : String
  meUser : String
  meDisplay : String
  meActive : String
  pingOk : String
  pingRaw : String
  pingBarWidth : String
deriving Repr, DecidableEq

/-- The clear-filters click handler wired by `wireEvents` in main.js:
blanks the four filter controls, writes the placeholder text into the
email table/raw/count/timing regions, and sets the email progress bar
to width 0%. The second component is the list of URLs the handler
fetches — the handler body contains no fetch, so it is empty. -/
def clearFiltersHandler (d : Dom) : Dom × List String :=
  ({ d with
      subjectInput := ""
      fromEmailInput := ""
      isReadSelect := ""
      isStarredSelect := ""
      emailTable := "—"
      emailRaw := "—"
      emailCount := "rows: —"
      emailTiming := "—"
      emailBarWidth := progressWidth 0 },
    [])

/-- C9: the clear-filter handler issues no network request, resets the
four filter controls to blank, sets the email table, raw payload, row
count and timing regions to their placeholder text, zeroes the email
progress bar, and leaves every other display region (user identity,
health check) unchanged. -/
theorem clearFilters_resets_without_fetch (d : Dom) :
    (clearFiltersHandler d).2 = [] ∧
    (clearFiltersHandler d).1.subjectInput = ("") ∧
    (clearFiltersHandler d).1.fromEmailInput = ("") ∧
    (clearFiltersHandler d).1.isReadSelect = ("") ∧
    (clearFiltersHandler d).1.isStarredSelect = ("") ∧
    (clearFiltersHandler d).1.emailTable = ("—") ∧
    (clearFiltersHandler d).1.emailRaw = ("—") ∧
    (clearFiltersHandler d).1.emailCount = ("rows: —") ∧
    (clearFiltersHandler d).1.emailTiming = ("—") ∧
    (clearFiltersHandler d).1.emailBarWidth = ("0%") ∧
    (clearFiltersHandler d).1.meMode = d.meMode ∧
    (clearFiltersHandler d).1.meRaw = d.meRaw ∧
    (clearFiltersHandler d).1.meUser = d.meUser ∧
    (clearFiltersHandler d).1.meDisplay = d.meDisplay ∧
    (clearFiltersHandler d).1.meActive = d.meActive ∧
    (clearFiltersHandler d).1.pingOk = d.pingOk ∧
    (clearFiltersHandler d).1.pingRaw = d.pingRaw ∧
    (clearFiltersHandler d).1.pingBarWidth = d.pingBarWidth :=
  ⟨rfl, rfl, rfl, rfl, rfl, rfl, rfl, rfl, rfl, rfl, rfl, rfl, rfl, rfl,
    rfl, rfl, rfl, rfl⟩

end Argus
